import Mathlib

/-!
Verification of the image-resolution, catalog-building and document-assembly
logic of epub_to_pdf.py (wlf186/EPUBToPDF).

The program's own logic is embedded shallowly:

* An archive content item (ebooklib item) is a record with an identifier, an
  archive path, a kind (image / HTML document / stylesheet / other), an
  optional declared media type and an optional byte payload.  A payload of
  none models an item whose get_content call (or the subsequent base64
  encoding) raises, which the program catches and skips.
* The image catalog (the Python dict named images) is an association list
  with Python-dict insert/lookup semantics (insert overwrites in place,
  otherwise appends).
* Path manipulation (os.path.dirname / join / normpath / basename / splitext,
  str.lstrip, str.replace) is modelled after the documented CPython
  posixpath / ntpath semantics for drive-less paths; the Boolean parameter
  win selects the Windows flavour (separator backslash, both separators
  recognised) versus the POSIX flavour.
* HTML parsing and re-serialisation (BeautifulSoup) and the PDF renderer
  (weasyprint) are external collaborators: a chapter's image references are
  modelled as the list of src attribute values in document order, and the
  parse / re-serialise / body-extraction functions are opaque parameters of
  the pipeline functions.
-/

inductive ItemKind where
  | image
  | html
  | stylesheet
  | other
  deriving DecidableEq

/-- An archive content item as exposed by the archive reader.  A content of
none models an item whose payload cannot be read (the extraction raises and
the program catches the exception). -/
structure Item where
  id : String
  name : String
  kind : ItemKind
  mediaType : Option String
  content : Option (List Nat)
  deriving DecidableEq

/-- An EPUB book as exposed by the archive reader: metadata title, the item
list in archive iteration order, and the spine (declared reading sequence of
item identifiers). -/
structure Book where
  title : Option String
  items : List Item
  spine : List String
  deriving DecidableEq

/-- The image catalog: a mapping from archive path to data URI, with Python
dict semantics. -/
abbrev Images := List (String × String)

/-- Python s.startswith(p). -/
def strStartsWith (s p : String) : Bool := p.data.isPrefixOf s.data

/-- Python s.endswith(p). -/
def strEndsWith (s p : String) : Bool := p.data.isSuffixOf s.data

/-- Substring test on character lists: does the haystack contain the needle as
a contiguous sublist?  (The empty needle is contained in everything, as in
Python.) -/
def listContains (n : List Char) : List Char → Bool
  | [] => n.isEmpty
  | c :: t => n.isPrefixOf (c :: t) || listContains n t

/-- Python needle in hay. -/
def strContains (hay needle : String) : Bool := listContains needle.data hay.data

/-- Is c a path separator?  POSIX recognises only the forward slash; Windows
also recognises the backslash. -/
def isSepC (win : Bool) (c : Char) : Bool := c = '/' || (win && c = '\\')

/-- Index of the last character satisfying p, if any. -/
def lastIdxP (p : Char → Bool) : List Char → Option Nat
  | [] => none
  | c :: rest =>
    match lastIdxP p rest with
    | some i => some (i + 1)
    | none => if p c then some 0 else none

/-- Length of the prefix of l up to and including the last separator
(Python rfind(sep) + 1, and 0 when there is no separator). -/
def afterLastSep (win : Bool) (l : List Char) : Nat :=
  match lastIdxP (fun c => isSepC win c) l with
  | some i => i + 1
  | none => 0

/-- os.path.dirname for drive-less paths: the part before the last separator,
with trailing separators stripped unless it consists only of separators. -/
def osDirname (win : Bool) (s : String) : String :=
  let l := s.data
  let head := l.take (afterLastSep win l)
  if head ≠ [] && head.any (fun c => !(isSepC win c)) then
    String.mk ((head.reverse.dropWhile (fun c => isSepC win c)).reverse)
  else String.mk head

/-- os.path.basename: the part after the last separator. -/
def osBasename (win : Bool) (s : String) : String :=
  String.mk (s.data.drop (afterLastSep win s.data))

/-- os.path.join for two drive-less components: a rooted second component
replaces the first; otherwise the components are glued with the OS separator
unless the first is empty or already ends in a separator. -/
def osJoin (win : Bool) (a b : String) : String :=
  if win then
    if isSepC true (b.data.headD 'x') then b
    else if a ≠ "" && !(isSepC true (a.data.getLastD 'x')) then a ++ "\\" ++ b
    else a ++ b
  else
    if strStartsWith b "/" then b
    else if a = "" || strEndsWith a "/" then a ++ b
    else a ++ "/" ++ b

/-- Python str.split on a single character (the empty string yields one empty
component). -/
def splitChar (sep : Char) : List Char → List (List Char)
  | [] => [[]]
  | c :: rest =>
    let r := splitChar sep rest
    if c = sep then [] :: r
    else
      match r with
      | h :: t => (c :: h) :: t
      | [] => [[c]]

/-- sep.join(components) on character lists. -/
def joinComps (sep : Char) (cs : List (List Char)) : List Char :=
  (cs.intersperse [sep]).flatten

/-- The component-collapsing loop shared by posixpath.normpath and
ntpath.normpath: empty and dot components are dropped; a dot-dot component
pops the last kept component unless nothing has been kept (in which case it
is dropped when the path is rooted and kept when it is relative) or the last
kept component is itself a dot-dot.  The accumulator holds the kept
components in reverse. -/
def collapseComps (rooted : Bool) : List (List Char) → List (List Char) → List (List Char)
  | acc, [] => acc.reverse
  | acc, c :: rest =>
    if c = [] || c = ['.'] then collapseComps rooted acc rest
    else if c = ['.', '.'] then
      match acc with
      | [] => if rooted then collapseComps rooted [] rest else collapseComps rooted [c] rest
      | a :: as =>
        if a = ['.', '.'] then collapseComps rooted (c :: a :: as) rest
        else collapseComps rooted as rest
    else collapseComps rooted (c :: acc) rest

/-- posixpath.normpath. -/
def posixNormpath (s : String) : String :=
  if s = "" then "." else
  let slashes : Nat :=
    if strStartsWith s "//" && !(strStartsWith s "///") then 2
    else if strStartsWith s "/" then 1 else 0
  let news := collapseComps (0 < slashes) [] (splitChar '/' s.data)
  let out := List.replicate slashes '/' ++ joinComps '/' news
  if out = [] then "." else String.mk out

/-- ntpath.normpath for drive-less paths: forward slashes become backslashes,
then components are collapsed. -/
def ntNormpath (s : String) : String :=
  let l := s.data.map (fun c => if c = '/' then '\\' else c)
  let rooted := isSepC true (l.headD 'x')
  let rest := l.dropWhile (fun c => c = '\\')
  let pre : List Char := if rooted then ['\\'] else []
  let news := collapseComps rooted [] (splitChar '\\' rest)
  if pre = [] && news = [] then "." else String.mk (pre ++ joinComps '\\' news)

/-- os.path.normpath of the selected OS flavour. -/
def osNormpath (win : Bool) (s : String) : String :=
  if win then ntNormpath s else posixNormpath s

/-- Python s.replace of backslash by forward slash. -/
def slashify (s : String) : String :=
  String.mk (s.data.map (fun c => if c = '\\' then '/' else c))

/-- Python s.lstrip of forward slashes. -/
def lstripSlash (s : String) : String :=
  String.mk (s.data.dropWhile (fun c => c = '/'))

/-- The candidate catalog key computed by process_html_images (lines 128-140):
a src beginning with a parent-directory marker is joined to the chapter's
directory and normalised, an absolute src has its leading slashes stripped,
and any other src is joined to the chapter's directory when that directory is
nonempty; backslashes are converted to forward slashes (the absolute branch
performs no conversion, exactly as in the source). -/
def candidateKey (win : Bool) (src htmlFileName : String) : String :=
  if strStartsWith src "../" then
    slashify (osNormpath win (osJoin win (osDirname win htmlFileName) src))
  else if strStartsWith src "/" then
    lstripSlash src
  else
    let d := osDirname win htmlFileName
    if d ≠ "" then slashify (osJoin win d src) else slashify src

/-- The base64 alphabet. -/
def b64Alphabet : List Char :=
  "ABCDEFGHIJKLMNOPQRSTUVWXYZabcdefghijklmnopqrstuvwxyz0123456789+/".data

/-- Character of the base64 alphabet at index n mod 64. -/
def b64Char (n : Nat) : Char := b64Alphabet.getD (n % 64) 'A'

/-- base64.b64encode on a byte list, with padding. -/
def base64Encode : List Nat → String
  | [] => ""
  | [a] => String.mk [b64Char (a / 4), b64Char (a % 4 * 16), '=', '=']
  | [a, b] => String.mk [b64Char (a / 4), b64Char (a % 4 * 16 + b / 16), b64Char (b % 16 * 4), '=']
  | a :: b :: c :: rest =>
    String.mk [b64Char (a / 4), b64Char (a % 4 * 16 + b / 16),
      b64Char (b % 16 * 4 + c / 64), b64Char (c % 64)] ++ base64Encode rest

/-- os.path.splitext second component (the extension) for POSIX paths: the
final dot-suffix of the basename, empty when the basename has no dot or only
leading dots. -/
def splitextExt (s : String) : String :=
  let l := s.data
  let s1 := afterLastSep false l
  let d1 : Nat :=
    match lastIdxP (fun c => c = '.') l with
    | some i => i + 1
    | none => 0
  if s1 < d1 && ((l.drop s1).take (d1 - 1 - s1)).any (fun c => c ≠ '.') then
    String.mk (l.drop (d1 - 1))
  else ""

/-- ASCII lower-casing of one character (Python str.lower restricted to the
ASCII range, which is all the extension table needs). -/
def lowerChar (c : Char) : Char :=
  if 'A' ≤ c && c ≤ 'Z' then Char.ofNat (c.toNat + 32) else c

/-- ASCII str.lower. -/
def lowerStr (s : String) : String := String.mk (s.data.map lowerChar)

/-- The fixed suffix-to-MIME table of extract_epub_content (lines 60-67). -/
def mimeTable : List (String × String) :=
  [(".jpg", "image/jpeg"), (".jpeg", "image/jpeg"), (".png", "image/png"),
   (".gif", "image/gif"), (".svg", "image/svg+xml"), (".webp", "image/webp")]

/-- mime_map.get(ext, default) applied to the lower-cased extension of a
file name. -/
def mimeFromName (name : String) : String :=
  (mimeTable.lookup (lowerStr (splitextExt name))).getD "image/jpeg"

/-- The media type the catalog builder stores for an image item (lines
55-68): the declared type when it is truthy, otherwise the extension-derived
type with default image/jpeg. -/
def imageMediaType (it : Item) : String :=
  match it.mediaType with
  | some m => if m = "" then mimeFromName it.name else m
  | none => mimeFromName it.name

/-- The media type used by the tier-3 fallback scan (line 158):
item.media_type or image/jpeg, with no extension inference. -/
def tier3MediaType (it : Item) : String :=
  match it.mediaType with
  | some m => if m = "" then "image/jpeg" else m
  | none => "image/jpeg"

/-- The data URI stored in the catalog. -/
def mkDataUri (mt : String) (bytes : List Nat) : String :=
  "data:" ++ mt ++ ";base64," ++ base64Encode bytes

/-- Python dict lookup. -/
def lookupImg : Images → String → Option String
  | [], _ => none
  | (k', v') :: rest, k => if k' = k then some v' else lookupImg rest k

/-- Python dict assignment: overwrite in place when the key is present,
append otherwise. -/
def insertImg : Images → String → String → Images
  | [], k, v => [(k, v)]
  | (k', v') :: rest, k, v =>
    if k' = k then (k', v) :: rest else (k', v') :: insertImg rest k v

/-- The image-catalog builder of extract_epub_content (lines 48-74): every
image item whose payload reads successfully is stored under its full archive
path as a data URI; an item whose payload cannot be read is skipped. -/
def buildImages : List Item → Images → Images
  | [], acc => acc
  | it :: rest, acc =>
    if it.kind = ItemKind.image then
      match it.content with
      | some bytes => buildImages rest (insertImg acc it.name (mkDataUri (imageMediaType it) bytes))
      | none => buildImages rest acc
    else buildImages rest acc

/-- The outcome of resolving one image reference: the final src attribute
value and the (possibly mutated) catalog. -/
structure ResolveOut where
  newSrc : String
  images : Images
  deriving DecidableEq

/-- The acceptance condition of the tier-3 fallback scan (lines 153-155): the
item is an image and its path equals the candidate key, or ends with the bare
filename, or contains the original src as a substring. -/
def tier3Cond (src imgPath imgName : String) (it : Item) : Bool :=
  it.kind == ItemKind.image &&
    (it.name == imgPath || strEndsWith it.name imgName || strContains it.name src)

/-- The first archive item accepted by the tier-3 condition, regardless of
whether its payload can be read.  (This is the item the specification says
tier 3 substitutes.) -/
def firstTier3Match (src imgPath imgName : String) (items : List Item) : Option Item :=
  items.find? (fun it => tier3Cond src imgPath imgName it)

/-- The first archive item accepted by the tier-3 condition whose payload can
be read.  (This is the item the code actually substitutes: a matching item
whose extraction raises is skipped by the except/pass and the scan
continues.) -/
def firstReadableTier3Match (src imgPath imgName : String) (items : List Item) : Option Item :=
  items.find? (fun it => tier3Cond src imgPath imgName it && it.content.isSome)

/-- The tier-3 fallback scan of process_html_images (lines 151-165): walk the
archive items; on the first accepted item whose payload reads, build its data
URI, cache it in the catalog under the item's own path, and substitute; an
accepted item whose payload cannot be read is skipped; if no item is
substituted the original src is kept and the catalog is unchanged. -/
def tier3Scan (src imgPath imgName : String) : List Item → Images → ResolveOut
  | [], images => ⟨src, images⟩
  | it :: rest, images =>
    if tier3Cond src imgPath imgName it then
      match it.content with
      | some bytes =>
        let uri := mkDataUri (tier3MediaType it) bytes
        ⟨uri, insertImg images it.name uri⟩
      | none => tier3Scan src imgPath imgName rest images
    else tier3Scan src imgPath imgName rest images

/-- Resolution of one image reference (the body of the loop of
process_html_images, lines 121-165): tier 1 is an exact catalog lookup of the
candidate key, tier 2 a catalog lookup of the bare filename of the original
src, tier 3 the fallback scan of the archive. -/
def resolveImgSrc (win : Bool) (src htmlFileName : String) (images : Images)
    (items : List Item) : ResolveOut :=
  let imgPath := candidateKey win src htmlFileName
  match lookupImg images imgPath with
  | some uri => ⟨uri, images⟩
  | none =>
    let imgName := osBasename win src
    match lookupImg images imgName with
    | some uri => ⟨uri, images⟩
    | none => tier3Scan src imgPath imgName items images

/-- process_html_images over the list of src attributes of a chapter's img
tags, in document order: an absent or empty src is skipped, every other src
is resolved, threading the catalog left to right. -/
def processSrcs (win : Bool) (htmlFileName : String) (items : List Item) :
    List String → Images → List String × Images
  | [], images => ([], images)
  | s :: rest, images =>
    if s = "" then
      let r := processSrcs win htmlFileName items rest images
      (s :: r.1, r.2)
    else
      let r1 := resolveImgSrc win s htmlFileName images items
      let r2 := processSrcs win htmlFileName items rest r1.images
      (r1.newSrc :: r2.1, r2.2)

/-- process_html_images on a whole chapter, with BeautifulSoup abstracted:
parse extracts the src attributes in document order and reser re-serialises
the document with the rewritten attributes. -/
def processHtml (win : Bool) (parse : String → List String)
    (reser : String → List String → String) (content htmlFileName : String)
    (images : Images) (items : List Item) : String × Images :=
  let r := processSrcs win htmlFileName items (parse content) images
  (reser content r.1, r.2)

/-- book.get_item_with_id. -/
def getItemWithId (items : List Item) (i : String) : Option Item :=
  items.find? (fun it => it.id == i)

/-- The spine loop of extract_epub_content (lines 80-100): walk the spine
identifiers, skipping identifiers already processed; an identifier naming an
HTML item whose payload reads is decoded, processed and appended; every other
identifier is skipped.  The catalog threads through the processing calls.
proc is the chapter-processing function (process_html_images) applied to
decoded content, file name, catalog and archive items; dec is the
utf-8-with-ignored-errors byte decoder. -/
def spinePassAux (proc : String → String → Images → List Item → String × Images)
    (dec : List Nat → String) (items : List Item) :
    List String → List String → Images → List String × Images
  | [], _, im => ([], im)
  | i :: rest, seen, im =>
    if seen.contains i then spinePassAux proc dec items rest seen im
    else
      match getItemWithId items i with
      | some it =>
        if it.kind == ItemKind.html then
          match it.content with
          | some b =>
            let r := proc (dec b) it.name im items
            let rr := spinePassAux proc dec items rest (i :: seen) r.2
            (r.1 :: rr.1, rr.2)
          | none => spinePassAux proc dec items rest (i :: seen) im
        else spinePassAux proc dec items rest (i :: seen) im
      | none => spinePassAux proc dec items rest (i :: seen) im

/-- The items the spine loop selects, in order: for each not-yet-seen spine
identifier, the item carrying that identifier when it is an HTML item with a
readable payload. -/
def spineSelect (items : List Item) : List String → List String → List Item
  | [], _ => []
  | i :: rest, seen =>
    if seen.contains i then spineSelect items rest seen
    else
      match getItemWithId items i with
      | some it =>
        if it.kind == ItemKind.html && it.content.isSome then
          it :: spineSelect items rest (i :: seen)
        else spineSelect items rest (i :: seen)
      | none => spineSelect items rest (i :: seen)

/-- Decode and process a list of already-selected HTML items in order,
threading the catalog. -/
def processSelected (proc : String → String → Images → List Item → String × Images)
    (dec : List Nat → String) (allItems : List Item) :
    List Item → Images → List String × Images
  | [], im => ([], im)
  | it :: rest, im =>
    match it.content with
    | some b =>
      let r := proc (dec b) it.name im allItems
      let rr := processSelected proc dec allItems rest r.2
      (r.1 :: rr.1, rr.2)
    | none => processSelected proc dec allItems rest im

/-- The full-archive fallback of extract_epub_content (lines 103-111): every
HTML item in archive iteration order whose payload reads is decoded,
processed and appended. -/
def fallbackPass (proc : String → String → Images → List Item → String × Images)
    (dec : List Nat → String) (allItems : List Item) :
    List Item → Images → List String × Images
  | [], im => ([], im)
  | it :: rest, im =>
    if it.kind == ItemKind.html then
      match it.content with
      | some b =>
        let r := proc (dec b) it.name im allItems
        let rr := fallbackPass proc dec allItems rest r.2
        (r.1 :: rr.1, rr.2)
      | none => fallbackPass proc dec allItems rest im
    else fallbackPass proc dec allItems rest im

/-- The result of extract_epub_content: chapter markup strings, raw
stylesheet payloads, and the final image catalog. -/
structure ExtractOut where
  html : List String
  css : List (List Nat)
  images : Images
  deriving DecidableEq

/-- extract_epub_content (lines 20-113): build the image catalog, collect the
stylesheet payloads, extract chapters in spine order, and fall back to every
HTML item in archive iteration order when the spine pass produced no chapter
content. -/
def extractEpubContent (proc : String → String → Images → List Item → String × Images)
    (dec : List Nat → String) (book : Book) : ExtractOut :=
  let images0 := buildImages book.items []
  let css := book.items.filterMap (fun it => if it.kind == ItemKind.stylesheet then it.content else none)
  let r := spinePassAux proc dec book.items book.spine [] images0
  if r.1.isEmpty then
    let rf := fallbackPass proc dec book.items book.items r.2
    ⟨rf.1, css, rf.2⟩
  else ⟨r.1, css, r.2⟩

/-- The page-break marker create_pdf writes before every chapter after the
first (line 218). -/
def pageBreakMarker : String := "<div style=\"page-break-after: always;\"></div>"

/-- The fixed head and print-style preamble create_pdf writes first
(lines 175-203). -/
def styleHead : String :=
  "<!DOCTYPE html>\n<html>\n<head>\n    <meta charset=\"utf-8\">\n    <style>\n        @page \x7b\n            margin: 2cm;\n        \x7d\n        body \x7b\n            font-family: serif;\n            line-height: 1.6;\n            max-width: 100%;\n            padding: 1em;\n        \x7d\n        img \x7b\n            max-width: 100%;\n            height: auto;\n            display: block;\n            margin: 0.5em auto;\n        \x7d\n        table \x7b\n            border-collapse: collapse;\n            width: 100%;\n        \x7d\n        p, div, h1, h2, h3, h4, h5, h6 \x7b\n            max-width: 100%;\n            word-wrap: break-word;\n        \x7d\n    "

/-- The chapter loop of create_pdf (lines 216-228) as the sequence of buffer
writes it performs: for each chapter with index i, the page-break marker is
written first when i is positive, followed by the chapter's extracted body
pieces.  extract models the BeautifulSoup body extraction (the body
element's children, or the whole markup when there is no body). -/
def chapterWrites (extract : String → List String) : Nat → List String → List String
  | _, [] => []
  | i, h :: t =>
    (if 0 < i then [pageBreakMarker] else []) ++ extract h ++ chapterWrites extract (i + 1) t

/-- The assembled markup of create_pdf: preamble, decoded stylesheets, body
open, chapter writes, body close. -/
def assembledHtml (cssDec : List Nat → String) (extract : String → List String)
    (chapters : List String) (css : List (List Nat)) : String :=
  styleHead ++ String.join (css.map cssDec) ++ "</style></head><body>" ++
    String.join (chapterWrites extract 0 chapters) ++ "</body></html>"

/-- The pipeline up to rendering: extraction followed by assembly. -/
def assembledMarkup (proc : String → String → Images → List Item → String × Images)
    (dec : List Nat → String) (cssDec : List Nat → String)
    (extract : String → List String) (book : Book) : String :=
  let r := extractEpubContent proc dec book
  assembledHtml cssDec extract r.html r.css

/-- epub_to_pdf after the input-file check (lines 254-271): extract; when no
chapter content was found report no-content and return failure; otherwise
render the assembled markup and return the renderer's outcome. -/
def epubToPdf (proc : String → String → Images → List Item → String × Images)
    (dec : List Nat → String) (cssDec : List Nat → String)
    (extract : String → List String) (render : String → Bool) (book : Book) : Bool :=
  let r := extractEpubContent proc dec book
  if r.html.isEmpty then false
  else render (assembledHtml cssDec extract r.html r.css)


theorem lookupImg_insertImg_self (im : Images) (k v : String) :
    lookupImg (insertImg im k v) k = some v := by
  induction im with
  | nil => simp [insertImg, lookupImg]
  | cons p rest ih =>
    obtain ⟨k', v'⟩ := p
    by_cases h : k' = k
    · simp [insertImg, lookupImg, h]
    · simp [insertImg, lookupImg, h, ih]

theorem lookupImg_insertImg_ne (im : Images) (k k' v : String) (h : k' ≠ k) :
    lookupImg (insertImg im k' v) k = lookupImg im k := by
  induction im with
  | nil => simp [insertImg, lookupImg, h]
  | cons p rest ih =>
    obtain ⟨k'', v''⟩ := p
    by_cases h2 : k'' = k'
    · subst h2
      simp [insertImg, lookupImg, h]
    · simp [insertImg, lookupImg, h2, ih]

theorem tier3Scan_of_none (items : List Item) (src ip iname : String) (im : Images)
    (h : firstReadableTier3Match src ip iname items = none) :
    tier3Scan src ip iname items im = ⟨src, im⟩ := by
  induction items generalizing im with
  | nil => simp [tier3Scan]
  | cons it rest ih =>
    by_cases hc : tier3Cond src ip iname it = true
    · cases hcon : it.content with
      | some b =>
        exfalso
        simp [firstReadableTier3Match, List.find?_cons, hc, hcon] at h
      | none =>
        simp only [firstReadableTier3Match, List.find?_cons, hc, hcon] at h ⊢
        simp only [Option.isSome_none, Bool.and_false, Bool.true_and] at h
        simp only [tier3Scan, hc, if_true, hcon]
        exact ih _ h
    · simp only [firstReadableTier3Match, List.find?_cons] at h
      rw [Bool.not_eq_true] at hc
      simp only [hc, Bool.false_and] at h
      simp only [tier3Scan, hc, Bool.false_eq_true, if_false]
      exact ih _ h

theorem tier3Scan_of_some (items : List Item) (src ip iname : String) (im : Images)
    (it : Item) (bytes : List Nat)
    (hf : firstReadableTier3Match src ip iname items = some it)
    (hc : it.content = some bytes) :
    tier3Scan src ip iname items im =
      ⟨mkDataUri (tier3MediaType it) bytes,
        insertImg im it.name (mkDataUri (tier3MediaType it) bytes)⟩ := by
  induction items generalizing im with
  | nil => simp [firstReadableTier3Match] at hf
  | cons a rest ih =>
    by_cases ha : tier3Cond src ip iname a = true
    · cases hcon : a.content with
      | some b =>
        have : a = it := by
          simp [firstReadableTier3Match, List.find?_cons, ha, hcon] at hf
          exact hf
        subst this
        rw [hcon] at hc
        injection hc with hb
        subst hb
        simp [tier3Scan, ha, hcon]
      | none =>
        simp only [firstReadableTier3Match, List.find?_cons, ha, hcon] at hf
        simp only [Option.isSome_none, Bool.and_false, Bool.true_and] at hf
        simp only [tier3Scan, ha, if_true, hcon]
        exact ih _ hf
    · simp only [firstReadableTier3Match, List.find?_cons] at hf
      rw [Bool.not_eq_true] at ha
      simp only [ha, Bool.false_and] at hf
      simp only [tier3Scan, ha, Bool.false_eq_true, if_false]
      exact ih _ hf

/-- Claim C1 (amended): image resolution follows the strict three-tier
precedence: tier 1 substitutes the catalog entry whose key exactly equals the
normalized candidate path; only if that fails, tier 2 substitutes the catalog
entry keyed by the bare filename of the original src; only if that also
fails, tier 3 linearly scans every image item of the archive and substitutes
the first item that satisfies the match condition (path equals the candidate
key, or ends with the bare filename, or contains the original src as a
substring) and whose payload can be read; matching items whose payload cannot
be read are skipped, and if no readable match exists the reference is left
unchanged. -/
theorem image_resolution_three_tier (win : Bool) (src file : String) (images : Images)
    (items : List Item) :
    (∀ u, lookupImg images (candidateKey win src file) = some u →
      resolveImgSrc win src file images items = ⟨u, images⟩) ∧
    (lookupImg images (candidateKey win src file) = none →
      ∀ u, lookupImg images (osBasename win src) = some u →
        resolveImgSrc win src file images items = ⟨u, images⟩) ∧
    (lookupImg images (candidateKey win src file) = none →
      lookupImg images (osBasename win src) = none →
      (∀ it bytes,
        firstReadableTier3Match src (candidateKey win src file) (osBasename win src) items = some it →
        it.content = some bytes →
        resolveImgSrc win src file images items =
          ⟨mkDataUri (tier3MediaType it) bytes,
            insertImg images it.name (mkDataUri (tier3MediaType it) bytes)⟩) ∧
      (firstReadableTier3Match src (candidateKey win src file) (osBasename win src) items = none →
        resolveImgSrc win src file images items = ⟨src, images⟩)) := by
  refine ⟨?_, ?_, ?_⟩
  · intro u hu
    simp [resolveImgSrc, hu]
  · intro h1 u hu
    simp [resolveImgSrc, h1, hu]
  · intro h1 h2
    constructor
    · intro it bytes hf hc
      simp only [resolveImgSrc, h1, h2]
      exact tier3Scan_of_some _ _ _ _ _ _ _ hf hc
    · intro hf
      simp only [resolveImgSrc, h1, h2]
      exact tier3Scan_of_none _ _ _ _ _ hf

/-- Claim C1 witness: a concrete tier-1 resolution through the theorem. -/
theorem image_resolution_three_tier_witness :
    lookupImg [("k.png", "URI")] (candidateKey false "k.png" "ch.html") = some "URI" ∧
    resolveImgSrc false "k.png" "ch.html" [("k.png", "URI")] [] =
      ⟨"URI", [("k.png", "URI")]⟩ :=
  ⟨by decide,
   (image_resolution_three_tier false "k.png" "ch.html" [("k.png", "URI")] []).1 "URI" (by decide)⟩

/-- Claim C1 counterexample: with an empty catalog and src pic.png resolved
from ch1.html, the first archive item satisfying the tier-3 match condition
is the item at x/pic.png, but its payload cannot be read, so the code skips
it (the except/pass in lines 164-165) and substitutes the data URI of the
second matching item at y/pic.png instead.  The claim as stated says tier 3
substitutes the first matching item, which is impossible here: the
substituted URI encodes the second item's payload and is cached under the
second item's path. -/
theorem image_resolution_first_match_counterexample :
    firstTier3Match "pic.png" "pic.png" "pic.png"
        [⟨"a", "x/pic.png", ItemKind.image, some "image/png", none⟩,
         ⟨"b", "y/pic.png", ItemKind.image, some "image/png", some [1, 2, 3]⟩] =
      some ⟨"a", "x/pic.png", ItemKind.image, some "image/png", none⟩ ∧
    (⟨"a", "x/pic.png", ItemKind.image, some "image/png", none⟩ : Item).content = none ∧
    candidateKey false "pic.png" "ch1.html" = "pic.png" ∧
    resolveImgSrc false "pic.png" "ch1.html" []
        [⟨"a", "x/pic.png", ItemKind.image, some "image/png", none⟩,
         ⟨"b", "y/pic.png", ItemKind.image, some "image/png", some [1, 2, 3]⟩] =
      ⟨"data:image/png;base64,AQID", [("y/pic.png", "data:image/png;base64,AQID")]⟩ := by
  decide

/-- Claim C2: a src beginning with a parent-directory marker is resolved
against the chapter's containing directory by join followed by standard
path-segment normalization, with separators converted to forward slashes; in
particular ../images/x.jpg inside a chapter at text/ch1.html normalizes to
the key images/x.jpg under both the POSIX and the Windows path conventions. -/
theorem relative_parent_src_normalization :
    (∀ (win : Bool) (src file : String), strStartsWith src "../" = true →
      candidateKey win src file =
        slashify (osNormpath win (osJoin win (osDirname win file) src))) ∧
    candidateKey false "../images/x.jpg" "text/ch1.html" = "images/x.jpg" ∧
    candidateKey true "../images/x.jpg" "text/ch1.html" = "images/x.jpg" ∧
    candidateKey false "../../img/y.png" "a/b/ch2.html" = "img/y.png" ∧
    candidateKey true "../../img/y.png" "a/b/ch2.html" = "img/y.png" := by
  refine ⟨?_, by decide, by decide, by decide, by decide⟩
  intro win src file h
  simp [candidateKey, h]

/-- Claim C2 witness: the general branch equation at a concrete input. -/
theorem relative_parent_src_normalization_witness :
    strStartsWith "../im/a.png" "../" = true ∧
    candidateKey false "../im/a.png" "t/c.html" =
      slashify (osNormpath false (osJoin false (osDirname false "t/c.html") "../im/a.png")) :=
  ⟨by decide, relative_parent_src_normalization.1 false "../im/a.png" "t/c.html" (by decide)⟩

/-- Claim C3: when a tier-3 fallback resolution succeeds, the resolved data
URI is inserted into the catalog under the matched item's own archive path,
and the mutation persists: any later reference whose normalized candidate key
equals that path resolves via the tier-1 exact lookup, with a result that
does not depend on the archive's item list at all (no rescan). -/
theorem tier3_caches_across_chapters (win : Bool) (src file : String) (images : Images)
    (items : List Item) (it : Item) (bytes : List Nat)
    (h1 : lookupImg images (candidateKey win src file) = none)
    (h2 : lookupImg images (osBasename win src) = none)
    (hf : firstReadableTier3Match src (candidateKey win src file) (osBasename win src) items = some it)
    (hc : it.content = some bytes) :
    (resolveImgSrc win src file images items).images =
      insertImg images it.name (mkDataUri (tier3MediaType it) bytes) ∧
    lookupImg (resolveImgSrc win src file images items).images it.name =
      some (mkDataUri (tier3MediaType it) bytes) ∧
    ∀ (src2 file2 : String) (items2 : List Item),
      candidateKey win src2 file2 = it.name →
      resolveImgSrc win src2 file2 (resolveImgSrc win src file images items).images items2 =
        ⟨mkDataUri (tier3MediaType it) bytes, (resolveImgSrc win src file images items).images⟩ := by
  have hres : resolveImgSrc win src file images items =
      ⟨mkDataUri (tier3MediaType it) bytes,
        insertImg images it.name (mkDataUri (tier3MediaType it) bytes)⟩ := by
    simp only [resolveImgSrc, h1, h2]
    exact tier3Scan_of_some _ _ _ _ _ _ _ hf hc
  rw [hres]
  refine ⟨rfl, lookupImg_insertImg_self _ _ _, ?_⟩
  intro src2 file2 items2 hk
  simp [resolveImgSrc, hk, lookupImg_insertImg_self]

/-- Claim C3 witness: a tier-3 discovery in chapter one is reused in chapter
two through the tier-1 lookup, against an empty archive item list. -/
theorem tier3_caches_across_chapters_witness :
    resolveImgSrc false "../images/cover.jpg" "text/ch2.html"
        (resolveImgSrc false "cover.jpg" "ch1.html" []
          [⟨"b", "images/cover.jpg", ItemKind.image, some "image/jpeg", some [255, 216]⟩]).images
        [] =
      ⟨mkDataUri (tier3MediaType ⟨"b", "images/cover.jpg", ItemKind.image, some "image/jpeg", some [255, 216]⟩) [255, 216],
        (resolveImgSrc false "cover.jpg" "ch1.html" []
          [⟨"b", "images/cover.jpg", ItemKind.image, some "image/jpeg", some [255, 216]⟩]).images⟩ :=
  (tier3_caches_across_chapters false "cover.jpg" "ch1.html" []
      [⟨"b", "images/cover.jpg", ItemKind.image, some "image/jpeg", some [255, 216]⟩]
      ⟨"b", "images/cover.jpg", ItemKind.image, some "image/jpeg", some [255, 216]⟩
      [255, 216] (by decide) (by decide) (by decide) rfl).2.2
    "../images/cover.jpg" "text/ch2.html" [] (by decide)

/-- Claim C4: a reference no tier resolves (candidate key not in the catalog,
bare filename not in the catalog, and no archive image satisfying the tier-3
match condition) keeps its original src and leaves the catalog unchanged; the
resolver is a total function, so no error is raised. -/
theorem unresolved_src_unchanged (win : Bool) (src file : String) (images : Images)
    (items : List Item)
    (h1 : lookupImg images (candidateKey win src file) = none)
    (h2 : lookupImg images (osBasename win src) = none)
    (h3 : ∀ it ∈ items, tier3Cond src (candidateKey win src file) (osBasename win src) it = false) :
    resolveImgSrc win src file images items = ⟨src, images⟩ := by
  simp only [resolveImgSrc, h1, h2]
  apply tier3Scan_of_none
  rw [firstReadableTier3Match, List.find?_eq_none]
  intro a ha
  simp [h3 a ha]

/-- Claim C4 witness: a concrete unresolvable reference. -/
theorem unresolved_src_unchanged_witness :
    resolveImgSrc false "zzz.png" "ch.html" []
        [⟨"a", "other.jpg", ItemKind.image, none, some [1]⟩] =
      ⟨"zzz.png", []⟩ :=
  unresolved_src_unchanged false "zzz.png" "ch.html" []
    [⟨"a", "other.jpg", ItemKind.image, none, some [1]⟩]
    (by decide) (by decide) (by decide)

/-- Claim C10: the tier-3 fallback uses the matched item's declared media
type when it is a nonempty string and image/jpeg otherwise, with no
extension-based inference; so an undeclared .png image resolved through
tier 3 is embedded as image/jpeg even though the catalog builder would have
inferred image/png for the same item. -/
theorem tier3_media_type_no_inference :
    (∀ (it : Item) (t : String), it.mediaType = some t → t ≠ "" → tier3MediaType it = t) ∧
    (∀ it : Item, it.mediaType = none → tier3MediaType it = "image/jpeg") ∧
    (resolveImgSrc false "photo.png" "ch.html" []
        [⟨"i", "pics/photo.png", ItemKind.image, none, some [137]⟩]).newSrc =
      "data:image/jpeg;base64,iQ==" ∧
    imageMediaType ⟨"i", "pics/photo.png", ItemKind.image, none, some [137]⟩ = "image/png" := by
  refine ⟨?_, ?_, by decide, by decide⟩
  · intro it t ht hne
    simp [tier3MediaType, ht, hne]
  · intro it ht
    simp [tier3MediaType, ht]

/-- Claim C10 witness: a declared media type is carried through unchanged. -/
theorem tier3_media_type_no_inference_witness :
    tier3MediaType ⟨"z", "a.gif", ItemKind.image, some "image/gif", none⟩ = "image/gif" :=
  tier3_media_type_no_inference.1
    ⟨"z", "a.gif", ItemKind.image, some "image/gif", none⟩ "image/gif" rfl (by decide)

/-- Claim C5: the media type stored in a catalog entry's data URI is the
item's declared media type when that is a nonempty string; otherwise it is
inferred case-insensitively from the file extension by the fixed table, with
image/jpeg as the default when no suffix matches. -/
theorem catalog_media_type :
    (∀ (it : Item) (m : String), it.mediaType = some m → m ≠ "" → imageMediaType it = m) ∧
    (∀ (it : Item) (bytes : List Nat), it.kind = ItemKind.image → it.content = some bytes →
      lookupImg (buildImages [it] []) it.name = some (mkDataUri (imageMediaType it) bytes)) ∧
    imageMediaType ⟨"1", "a.JpG", ItemKind.image, none, none⟩ = "image/jpeg" ∧
    imageMediaType ⟨"2", "a.jPeG", ItemKind.image, none, none⟩ = "image/jpeg" ∧
    imageMediaType ⟨"3", "a.PnG", ItemKind.image, none, none⟩ = "image/png" ∧
    imageMediaType ⟨"4", "a.GiF", ItemKind.image, none, none⟩ = "image/gif" ∧
    imageMediaType ⟨"5", "a.SvG", ItemKind.image, none, none⟩ = "image/svg+xml" ∧
    imageMediaType ⟨"6", "a.WebP", ItemKind.image, none, none⟩ = "image/webp" ∧
    imageMediaType ⟨"7", "a.bmp", ItemKind.image, none, none⟩ = "image/jpeg" ∧
    imageMediaType ⟨"8", "noext", ItemKind.image, none, none⟩ = "image/jpeg" ∧
    imageMediaType ⟨"9", "a.png", ItemKind.image, some "", none⟩ = "image/png" := by
  refine ⟨?_, ?_, by decide⟩
  · intro it m hm hne
    simp [imageMediaType, hm, hne]
  · intro it bytes hk hc
    simp [buildImages, hk, hc, insertImg, lookupImg]

/-- Claim C5 witness: a declared media type is stored as declared. -/
theorem catalog_media_type_witness :
    imageMediaType ⟨"w", "x.bin", ItemKind.image, some "image/webp", none⟩ = "image/webp" :=
  catalog_media_type.1 ⟨"w", "x.bin", ItemKind.image, some "image/webp", none⟩
    "image/webp" rfl (by decide)

theorem buildImages_lookup_mem (items : List Item) (acc : Images) (k v : String)
    (h : lookupImg (buildImages items acc) k = some v) :
    lookupImg acc k = some v ∨
      ∃ it, it ∈ items ∧ it.kind = ItemKind.image ∧ it.name = k ∧
        ∃ bytes, it.content = some bytes ∧ v = mkDataUri (imageMediaType it) bytes := by
  induction items generalizing acc with
  | nil =>
    left
    simpa [buildImages] using h
  | cons it rest ih =>
    by_cases hk : it.kind = ItemKind.image
    · cases hc : it.content with
      | some bytes =>
        rw [buildImages, if_pos hk, hc] at h
        rcases ih _ h with h2 | h2
        · by_cases hn : it.name = k
          · subst hn
            rw [lookupImg_insertImg_self] at h2
            injection h2 with hv
            exact Or.inr ⟨it, List.mem_cons_self it rest, hk, rfl, bytes, hc, hv.symm⟩
          · rw [lookupImg_insertImg_ne _ _ _ _ hn] at h2
            exact Or.inl h2
        · rcases h2 with ⟨it', hm, rest'⟩
          exact Or.inr ⟨it', List.mem_cons_of_mem _ hm, rest'⟩
      | none =>
        rw [buildImages, if_pos hk, hc] at h
        rcases ih _ h with h2 | h2
        · exact Or.inl h2
        · rcases h2 with ⟨it', hm, rest'⟩
          exact Or.inr ⟨it', List.mem_cons_of_mem _ hm, rest'⟩
    · rw [buildImages, if_neg hk] at h
      rcases ih _ h with h2 | h2
      · exact Or.inl h2
      · rcases h2 with ⟨it', hm, rest'⟩
        exact Or.inr ⟨it', List.mem_cons_of_mem _ hm, rest'⟩

theorem buildImages_skips_unreadable (items : List Item) (acc : Images) :
    buildImages items acc =
      buildImages (items.filter (fun it => !(it.kind == ItemKind.image && it.content.isNone))) acc := by
  induction items generalizing acc with
  | nil => rfl
  | cons it rest ih =>
    by_cases hk : it.kind = ItemKind.image
    · cases hc : it.content with
      | some bytes =>
        rw [buildImages, if_pos hk, hc]
        rw [List.filter_cons]
        simp only [hk, hc, Option.isNone_some, Bool.and_false, Bool.not_false, if_true,
          beq_self_eq_true, Bool.and_true]
        rw [buildImages, if_pos hk, hc]
        exact ih _
      | none =>
        rw [buildImages, if_pos hk, hc]
        rw [List.filter_cons]
        simp only [hk, hc, Option.isNone_none, beq_self_eq_true, Bool.and_true, Bool.not_true,
          Bool.false_eq_true, if_false]
        exact ih _
    · rw [buildImages, if_neg hk]
      rw [List.filter_cons]
      have hkb : (it.kind == ItemKind.image) = false := by
        simp [hk]
      simp only [hkb, Bool.false_and, Bool.not_false, if_true]
      rw [buildImages, if_neg hk]
      exact ih _

/-- Claim C6: every key of the built catalog is the archive path of an image
item whose payload was read successfully, and its value is the data URI built
from that item's payload; unreadable image items contribute nothing to the
catalog (building over the item list equals building over the list with the
unreadable image items removed), and the builder is a total function, so a
failed item never aborts the build. -/
theorem catalog_invariant (items : List Item) :
    (∀ (k v : String), lookupImg (buildImages items []) k = some v →
      ∃ it, it ∈ items ∧ it.kind = ItemKind.image ∧ it.name = k ∧
        ∃ bytes, it.content = some bytes ∧ v = mkDataUri (imageMediaType it) bytes) ∧
    buildImages items [] =
      buildImages (items.filter (fun it => !(it.kind == ItemKind.image && it.content.isNone))) [] := by
  constructor
  · intro k v h
    rcases buildImages_lookup_mem items [] k v h with h2 | h2
    · simp [lookupImg] at h2
    · exact h2
  · exact buildImages_skips_unreadable items []

/-- Claim C6 witness: a concrete catalog entry traced back to its item, in an
archive where an unreadable image item precedes it. -/
theorem catalog_invariant_witness :
    ∃ it, it ∈ [⟨"u", "bad.png", ItemKind.image, none, none⟩,
                ⟨"i", "a.png", ItemKind.image, none, some [1]⟩] ∧
      it.kind = ItemKind.image ∧ it.name = "a.png" ∧
      ∃ bytes, it.content = some bytes ∧
        "data:image/png;base64,AQ==" = mkDataUri (imageMediaType it) bytes :=
  (catalog_invariant [⟨"u", "bad.png", ItemKind.image, none, none⟩,
      ⟨"i", "a.png", ItemKind.image, none, some [1]⟩]).1
    "a.png" "data:image/png;base64,AQ==" (by decide)

theorem chapterWrites_pos (extract : String → List String) (cs : List String) :
    ∀ i : Nat, 0 < i →
      chapterWrites extract i cs = (cs.map (fun ch => pageBreakMarker :: extract ch)).flatten := by
  induction cs with
  | nil => intro i _; rfl
  | cons c rest ih =>
    intro i hi
    rw [chapterWrites, if_pos hi]
    rw [List.map_cons, List.flatten_cons]
    rw [ih (i + 1) (Nat.succ_pos i)]
    rfl

theorem chapterWrites_zero_cons (extract : String → List String) (c : String) (cs : List String) :
    chapterWrites extract 0 (c :: cs) =
      extract c ++ (cs.map (fun ch => pageBreakMarker :: extract ch)).flatten := by
  rw [chapterWrites]
  simp only [Nat.lt_irrefl, if_false]
  rw [chapterWrites_pos extract cs 1 Nat.one_pos]
  rfl

theorem count_marker_flatten (extract : String → List String) (cs : List String)
    (h : ∀ ch ∈ cs, pageBreakMarker ∉ extract ch) :
    ((cs.map (fun ch => pageBreakMarker :: extract ch)).flatten).count pageBreakMarker = cs.length := by
  induction cs with
  | nil => rfl
  | cons c rest ih =>
    rw [List.map_cons, List.flatten_cons, List.count_append]
    rw [List.count_cons_self]
    rw [List.count_eq_zero.mpr (h c (List.mem_cons_self c rest))]
    rw [ih (fun ch hm => h ch (List.mem_cons_of_mem _ hm))]
    simp [List.length_cons, Nat.add_comm]

/-- Claim C7: in the assembled document's write sequence, no page-break
marker precedes the first chapter, exactly one marker is written immediately
before each later chapter's content, and (provided no extracted chapter piece
is itself the marker string) a document assembled from n chapters contains
exactly n - 1 page-break markers. -/
theorem page_break_markers (extract : String → List String) (c : String) (cs chs : List String)
    (h : ∀ ch ∈ chs, pageBreakMarker ∉ extract ch) :
    chapterWrites extract 0 [] = [] ∧
    chapterWrites extract 0 (c :: cs) =
      extract c ++ (cs.map (fun ch => pageBreakMarker :: extract ch)).flatten ∧
    (chapterWrites extract 0 chs).count pageBreakMarker = chs.length - 1 := by
  refine ⟨rfl, chapterWrites_zero_cons extract c cs, ?_⟩
  cases chs with
  | nil => rfl
  | cons c' cs' =>
    rw [chapterWrites_zero_cons]
    rw [List.count_append]
    rw [List.count_eq_zero.mpr (h c' (List.mem_cons_self c' cs'))]
    rw [count_marker_flatten extract cs' (fun ch hm => h ch (List.mem_cons_of_mem _ hm))]
    simp

/-- Claim C7 witness: three chapters produce exactly two markers. -/
theorem page_break_markers_witness :
    (chapterWrites (fun s => [s]) 0 ["a", "b", "c"]).count pageBreakMarker = 2 :=
  (page_break_markers (fun s => [s]) "x" [] ["a", "b", "c"] (by decide)).2.2

theorem spinePass_select (proc : String → String → Images → List Item → String × Images)
    (dec : List Nat → String) (items : List Item) (spine : List String) :
    ∀ (seen : List String) (im : Images),
      spinePassAux proc dec items spine seen im =
        processSelected proc dec items (spineSelect items spine seen) im := by
  induction spine with
  | nil => intro seen im; rfl
  | cons i rest ih =>
    intro seen im
    by_cases hs : seen.contains i = true
    · rw [spinePassAux, if_pos hs, spineSelect, if_pos hs]
      exact ih seen im
    · rw [Bool.not_eq_true] at hs
      rw [spinePassAux, spineSelect, hs]
      simp only [Bool.false_eq_true, if_false]
      cases hit : getItemWithId items i with
      | some it =>
        by_cases hk : (it.kind == ItemKind.html) = true
        · cases hc : it.content with
          | some b =>
            simp only [hk, hc, Option.isSome_some, Bool.and_true, if_true]
            rw [processSelected, hc]
            rw [ih (i :: seen) (proc (dec b) it.name im items).2]
          | none =>
            simp only [hk, hc, Option.isSome_none, Bool.and_false, Bool.true_and,
              Bool.false_eq_true, if_false, if_true]
            exact ih (i :: seen) im
        · rw [Bool.not_eq_true] at hk
          simp only [hk, Bool.false_eq_true, if_false, Bool.false_and]
          exact ih (i :: seen) im
      | none => exact ih (i :: seen) im

theorem fallback_select (proc : String → String → Images → List Item → String × Images)
    (dec : List Nat → String) (allItems : List Item) (l : List Item) :
    ∀ im : Images,
      fallbackPass proc dec allItems l im =
        processSelected proc dec allItems
          (l.filter (fun it => it.kind == ItemKind.html && it.content.isSome)) im := by
  induction l with
  | nil => intro im; rfl
  | cons it rest ih =>
    intro im
    by_cases hk : (it.kind == ItemKind.html) = true
    · cases hc : it.content with
      | some b =>
        rw [fallbackPass, if_pos hk, hc, List.filter_cons]
        simp only [hk, hc, Option.isSome_some, Bool.and_true, if_true]
        rw [processSelected, hc]
        rw [ih (proc (dec b) it.name im allItems).2]
      | none =>
        rw [fallbackPass, if_pos hk, hc, List.filter_cons]
        simp only [hk, hc, Option.isSome_none, Bool.and_false, Bool.false_eq_true, if_false]
        exact ih im
    · rw [Bool.not_eq_true] at hk
      rw [fallbackPass, hk, List.filter_cons]
      simp only [hk, Bool.false_and, Bool.false_eq_true, if_false]
      exact ih im

/-- Claim C8 (amended): the spine pass extracts exactly the readable HTML
items selected by walking the spine in order (duplicates processed once), and
the fallback pass extracts exactly the readable HTML items in archive
iteration order; the fallback is taken exactly when the spine pass yields no
chapter content - in particular always when the spine is empty, but also when
a nonempty spine selects nothing; and when the extraction yields no chapter
content at all the conversion returns failure without rendering. -/
theorem chapter_extraction_order (proc : String → String → Images → List Item → String × Images)
    (dec : List Nat → String) (book : Book) :
    spinePassAux proc dec book.items book.spine [] (buildImages book.items []) =
      processSelected proc dec book.items (spineSelect book.items book.spine [])
        (buildImages book.items []) ∧
    fallbackPass proc dec book.items book.items
        (spinePassAux proc dec book.items book.spine [] (buildImages book.items [])).2 =
      processSelected proc dec book.items
        (book.items.filter (fun it => it.kind == ItemKind.html && it.content.isSome))
        (spinePassAux proc dec book.items book.spine [] (buildImages book.items [])).2 ∧
    (book.spine = [] →
      (spinePassAux proc dec book.items book.spine [] (buildImages book.items [])).1 = []) ∧
    ((spinePassAux proc dec book.items book.spine [] (buildImages book.items [])).1 = [] →
      (extractEpubContent proc dec book).html =
        (fallbackPass proc dec book.items book.items
          (spinePassAux proc dec book.items book.spine [] (buildImages book.items [])).2).1) ∧
    ((spinePassAux proc dec book.items book.spine [] (buildImages book.items [])).1 ≠ [] →
      (extractEpubContent proc dec book).html =
        (spinePassAux proc dec book.items book.spine [] (buildImages book.items [])).1) ∧
    ((extractEpubContent proc dec book).html = [] →
      ∀ (cssDec : List Nat → String) (extract : String → List String) (render : String → Bool),
        epubToPdf proc dec cssDec extract render book = false) := by
  refine ⟨spinePass_select proc dec book.items book.spine [] (buildImages book.items []),
    fallback_select proc dec book.items book.items _, ?_, ?_, ?_, ?_⟩
  · intro hs
    rw [hs]
    rfl
  · intro h
    simp only [extractEpubContent]
    rw [h]
    rfl
  · intro h
    cases hl : (spinePassAux proc dec book.items book.spine [] (buildImages book.items [])).1 with
    | nil => exact absurd hl h
    | cons a l =>
      simp only [extractEpubContent]
      rw [hl]
      rfl
  · intro h cssDec extract render
    simp only [epubToPdf]
    rw [h]
    rfl

/-- Claim C8 counterexample: a book whose spine is the nonempty list
containing only the unknown identifier missing, with a single readable HTML
item in the archive.  The spine pass yields no chapter content, so the code
takes the full-archive fallback and extracts that item even though the
declared reading sequence is not empty - refuting the claim that the fallback
is taken if and only if the sequence is empty. -/
theorem spine_fallback_counterexample :
    (["missing"] : List String) ≠ [] ∧
    (spinePassAux (fun c _ im _ => (c, im)) (fun _ => "H")
        [⟨"x", "c1.html", ItemKind.html, none, some [104]⟩] ["missing"] [] []).1 = [] ∧
    (extractEpubContent (fun c _ im _ => (c, im)) (fun _ => "H")
        ⟨none, [⟨"x", "c1.html", ItemKind.html, none, some [104]⟩], ["missing"]⟩).html = ["H"] := by
  decide

/-- Claim C8 witness: a book with no HTML content at all aborts with failure
even under a renderer that always succeeds. -/
theorem chapter_extraction_order_witness :
    epubToPdf (fun c _ im _ => (c, im)) (fun _ => "H") (fun _ => "") (fun s => [s]) (fun _ => true)
      ⟨none, [⟨"img1", "a.png", ItemKind.image, none, some [1]⟩], []⟩ = false :=
  (chapter_extraction_order (fun c _ im _ => (c, im)) (fun _ => "H")
      ⟨none, [⟨"img1", "a.png", ItemKind.image, none, some [1]⟩], []⟩).2.2.2.2.2
    (by decide) (fun _ => "") (fun s => [s]) (fun _ => true)

/-- Claim C9: the pipeline up to rendering is a deterministic function of the
archive's items (in their iteration order) and its spine: two books agreeing
on those fields - whatever their metadata title - assemble to the identical
markup string, so running the extraction and assembly twice on the same
archive contents yields byte-for-byte identical output. -/
theorem assembly_deterministic (proc : String → String → Images → List Item → String × Images)
    (dec : List Nat → String) (cssDec : List Nat → String) (extract : String → List String)
    (b1 b2 : Book) (hi : b1.items = b2.items) (hs : b1.spine = b2.spine) :
    assembledMarkup proc dec cssDec extract b1 = assembledMarkup proc dec cssDec extract b2 := by
  obtain ⟨t1, i1, s1⟩ := b1
  obtain ⟨t2, i2, s2⟩ := b2
  change i1 = i2 at hi
  change s1 = s2 at hs
  subst hi
  subst hs
  rfl

/-- Claim C9 witness: two concrete books differing only in title assemble
identically. -/
theorem assembly_deterministic_witness :
    assembledMarkup (fun c _ im _ => (c, im)) (fun _ => "H") (fun _ => "") (fun s => [s])
        ⟨some "Title A", [⟨"x", "c1.html", ItemKind.html, none, some [104]⟩], ["x"]⟩ =
      assembledMarkup (fun c _ im _ => (c, im)) (fun _ => "H") (fun _ => "") (fun s => [s])
        ⟨none, [⟨"x", "c1.html", ItemKind.html, none, some [104]⟩], ["x"]⟩ :=
  assembly_deterministic (fun c _ im _ => (c, im)) (fun _ => "H") (fun _ => "") (fun s => [s])
    ⟨some "Title A", [⟨"x", "c1.html", ItemKind.html, none, some [104]⟩], ["x"]⟩
    ⟨none, [⟨"x", "c1.html", ItemKind.html, none, some [104]⟩], ["x"]⟩ rfl rfl
